import Mathlib

/-!
Verification of the candidate-evaluation repository's scoring engine
(`candidate_ranking_tool.py`) and text-extraction engine
(`pdf_extraction_tools.py`). Python fractional arithmetic is embedded with
exact rationals, machine integers with `Int`/`Nat`, and Python strings with
`String` over their character lists. Fallible code is embedded with `Except`.
-/

namespace CandidateRanking

/-- Python `str.lower()` on the ASCII range, as used on the repository's data. -/
def pyLower (s : String) : String := String.mk (s.toList.map Char.toLower)

/-- Whether `p` is a prefix of `s`, on character lists. -/
def listStarts : List Char → List Char → Bool
  | [], _ => true
  | _ :: _, [] => false
  | a :: as, b :: bs => a == b && listStarts as bs

/-- Whether `needle` occurs contiguously inside `hay`, on character lists. -/
def listHasInfix (needle : List Char) : List Char → Bool
  | [] => needle.isEmpty
  | c :: rest => listStarts needle (c :: rest) || listHasInfix needle rest

/-- Python `needle in hay` on strings: substring containment. -/
def containsSub (needle hay : String) : Bool := listHasInfix needle.toList hay.toList

/-- Python `str.split()` with no argument: split on whitespace runs, discarding
empty pieces. -/
def pySplitWs (s : String) : List String :=
  (s.split Char.isWhitespace).filter (fun w => w ≠ "")

/-- One record of the `CANDIDATES` table (`candidate_data.py`). -/
structure Candidate where
  id : Int
  name : String
  email : String
  skills : List String
  experience_years : Int
  education : String
  previous_roles : List String
  certifications : List String
  summary : String
deriving DecidableEq, Repr

/-- One record of the `SAMPLE_JOB_DESCRIPTIONS` table (`candidate_data.py`). -/
structure JobDescription where
  id : Int
  title : String
  company : String
  description : String
  required_skills : List String
  preferred_skills : List String
  min_experience : Int
  education_requirements : String
  responsibilities : List String
deriving DecidableEq, Repr

/-- Breakdown dictionary returned by `calculate_skills_match`. -/
structure SkillsBreakdown where
  required_matches : Nat
  required_total : Nat
  required_score : ℚ
  preferred_matches : Nat
  preferred_total : Nat
  preferred_score : ℚ
  overall_score : ℚ
deriving DecidableEq, Repr

/-- `CandidateRanker.calculate_skills_match` (`candidate_ranking_tool.py`,
lines 17-53): case-insensitive exact-equality overlap of the candidate's
skills with the required and preferred skill lists, guarding empty lists. -/
def calculate_skills_match (candidate_skills required_skills preferred_skills : List String) :
    ℚ × SkillsBreakdown :=
  let candidate_skills_lower := candidate_skills.map pyLower
  let required_skills_lower := required_skills.map pyLower
  let preferred_skills_lower := preferred_skills.map pyLower
  let required_matches :=
    required_skills_lower.countP (fun skill => candidate_skills_lower.contains skill)
  let required_score : ℚ :=
    if required_skills_lower ≠ [] then
      (required_matches : ℚ) / (required_skills_lower.length : ℚ)
    else 0
  let preferred_matches :=
    preferred_skills_lower.countP (fun skill => candidate_skills_lower.contains skill)
  let preferred_score : ℚ :=
    if preferred_skills_lower ≠ [] then
      (preferred_matches : ℚ) / (preferred_skills_lower.length : ℚ)
    else 0
  let overall_score := required_score * 0.7 + preferred_score * 0.3
  (overall_score,
   { required_matches, required_total := required_skills_lower.length, required_score,
     preferred_matches, preferred_total := preferred_skills_lower.length, preferred_score,
     overall_score })

/-- The guarded match ratio used by both branches of `calculate_skills_match`
(number of matched skills over list length, 0 for an empty list). -/
def subRatio (candidate_skills l : List String) : ℚ :=
  if l.map pyLower ≠ [] then
    (((l.map pyLower).countP
        (fun skill => (candidate_skills.map pyLower).contains skill)) : ℚ)
      / ((l.map pyLower).length : ℚ)
  else 0

/-- Breakdown dictionary returned by `calculate_experience_score`. -/
structure ExperienceBreakdown where
  candidate_experience : Int
  min_required : Int
  meets_requirement : Bool
  score : ℚ
deriving DecidableEq, Repr

/-- `CandidateRanker.calculate_experience_score` (`candidate_ranking_tool.py`,
lines 55-79). -/
def calculate_experience_score (candidate_experience min_experience : Int) :
    ℚ × ExperienceBreakdown :=
  let score : ℚ :=
    if candidate_experience ≥ min_experience then
      let extra_years := candidate_experience - min_experience
      let bonus := min ((extra_years : ℚ) * 0.1) 0.3
      min 1.0 (0.8 + bonus)
    else
      let shortage := min_experience - candidate_experience
      let penalty := (shortage : ℚ) * 0.2
      max 0.0 (0.8 - penalty)
  (score,
   { candidate_experience, min_required := min_experience,
     meets_requirement := decide (candidate_experience ≥ min_experience), score })

/-- The `education_mapping` dictionary of `calculate_education_score`. -/
def education_mapping : List (String × Nat) :=
  [("phd", 4), ("doctorate", 4),
   ("ms", 3), ("master", 3), ("masters", 3),
   ("bs", 2), ("bachelor", 2), ("bachelors", 2),
   ("associate", 1), ("diploma", 1)]

/-- The keyword scan of `calculate_education_score`: maximum mapped level over
all keywords occurring (as substrings) in the lower-cased text, default 0. -/
def degreeLevel (text : String) : Nat :=
  education_mapping.foldl
    (fun acc p => if containsSub p.1 (pyLower text) then max acc p.2 else acc) 0

/-- Breakdown dictionary returned by `calculate_education_score`. -/
structure EducationBreakdown where
  candidate_education : String
  required_education : String
  candidate_level : Nat
  required_level : Nat
  meets_requirement : Bool
  score : ℚ
deriving DecidableEq, Repr

/-- `CandidateRanker.calculate_education_score` (`candidate_ranking_tool.py`,
lines 81-123). -/
def calculate_education_score (candidate_education education_requirements : String) :
    ℚ × EducationBreakdown :=
  let candidate_level := degreeLevel candidate_education
  let required_level := degreeLevel education_requirements
  let score0 : ℚ :=
    if candidate_level ≥ required_level then
      0.8 + ((candidate_level : ℚ) - (required_level : ℚ)) * 0.1
    else
      max 0.0 (0.8 - ((required_level : ℚ) - (candidate_level : ℚ)) * 0.2)
  let score := min 1.0 score0
  (score,
   { candidate_education, required_education := education_requirements,
     candidate_level, required_level,
     meets_requirement := decide (candidate_level ≥ required_level), score })

/-- Breakdown dictionary returned by `calculate_role_relevance`. -/
structure RoleBreakdown where
  previous_roles : List String
  job_title : String
  role_matches : Nat
  score : ℚ
deriving DecidableEq, Repr

/-- `CandidateRanker.calculate_role_relevance` (`candidate_ranking_tool.py`,
lines 125-152): count previous roles sharing a whole token with the job
title; positive matches score `min 1 (0.6 + matches*0.2)`, otherwise 0.3. -/
def calculate_role_relevance (previous_roles : List String) (job_title : String) :
    ℚ × RoleBreakdown :=
  let job_keywords := pySplitWs (pyLower job_title)
  let role_matches := previous_roles.countP (fun role =>
    let role_words := pySplitWs (pyLower role)
    job_keywords.any (fun keyword => role_words.contains keyword))
  let score : ℚ :=
    if role_matches > 0 then min 1.0 (0.6 + (role_matches : ℚ) * 0.2) else 0.3
  (score, { previous_roles, job_title, role_matches, score })

/-- The `scores` dictionary stored in each ranked-candidate result. -/
structure SubScores where
  skills : ℚ
  experience : ℚ
  education : ℚ
  role_relevance : ℚ
deriving DecidableEq, Repr

/-- The `breakdowns` dictionary stored in each ranked-candidate result. -/
structure Breakdowns where
  skills : SkillsBreakdown
  experience : ExperienceBreakdown
  education : EducationBreakdown
  role_relevance : RoleBreakdown
deriving DecidableEq, Repr

/-- One `candidate_result` dictionary built by `rank_candidates`. -/
structure RankedResult where
  candidate : Candidate
  overall_score : ℚ
  scores : SubScores
  breakdowns : Breakdowns
deriving DecidableEq, Repr

/-- The per-candidate body of the `rank_candidates` loop
(`candidate_ranking_tool.py`, lines 161-210): the four sub-scores and the
fixed-weight overall score. -/
def scoreCandidate (job_description : JobDescription) (candidate : Candidate) : RankedResult :=
  let s := calculate_skills_match candidate.skills
    job_description.required_skills job_description.preferred_skills
  let e := calculate_experience_score candidate.experience_years job_description.min_experience
  let ed := calculate_education_score candidate.education job_description.education_requirements
  let r := calculate_role_relevance candidate.previous_roles job_description.title
  let overall_score := s.1 * 0.4 + e.1 * 0.25 + ed.1 * 0.20 + r.1 * 0.15
  { candidate, overall_score,
    scores := { skills := s.1, experience := e.1, education := ed.1, role_relevance := r.1 },
    breakdowns := { skills := s.2, experience := e.2, education := ed.2, role_relevance := r.2 } }

/-- The comparator of the final `ranked_candidates.sort(key=..., reverse=True)`:
`a` may precede `b` exactly when `a`'s overall score is at least `b`'s. -/
def rankLE (a b : RankedResult) : Bool := decide (b.overall_score ≤ a.overall_score)

/-- `CandidateRanker.rank_candidates` (`candidate_ranking_tool.py`, lines
154-215): score every candidate of the table, then sort descending by overall
score. Python's `list.sort` is a stable sort, embedded by `List.mergeSort`. -/
def rank_candidates (candidates : List Candidate) (job_description : JobDescription) :
    List RankedResult :=
  (candidates.map (scoreCandidate job_description)).mergeSort rankLE

/-- A miniature candidate record used to instantiate hypothesis-bearing theorems. -/
def wCandidate : Candidate :=
  { id := 1, name := "Ada", email := "ada@mail.com", skills := ["Python", "AWS"],
    experience_years := 3, education := "BS Math", previous_roles := ["Developer"],
    certifications := [], summary := "dev" }

/-- A miniature job record used to instantiate hypothesis-bearing theorems. -/
def wJob : JobDescription :=
  { id := 1, title := "Developer", company := "Acme", description := "dev job",
    required_skills := ["Python"], preferred_skills := [], min_experience := 2,
    education_requirements := "BS", responsibilities := [] }

end CandidateRanking

namespace PDFExtraction

open CandidateRanking (pyLower containsSub listStarts listHasInfix pySplitWs)

/-- Word character for the regex `\b` boundary: `[A-Za-z0-9_]` (the texts the
tool processes are ASCII). -/
def isWordChar (c : Char) : Bool := c.isAlphanum || c == '_'

/-- The regex `\s` class: space, tab, newline, carriage return, vertical tab,
form feed. -/
def isPyWs (c : Char) : Bool :=
  c == ' ' || c == '\t' || c == '\n' || c == '\r' || c == '\x0b' || c == '\x0c'

/-- Regex AST covering the patterns compiled in `pdf_extraction_tools.py`:
single-character classes, greedy counted repetition of a class, optional
groups, two-way alternation of groups, and the word boundary `\b`. -/
inductive RE where
  | cls (p : Char → Bool)
  | rep (p : Char → Bool) (lo : Nat) (hi : Option Nat)
  | grpOpt (g : List RE)
  | alt (a b : List RE)
  | wb

mutual

def reSize : RE → Nat
  | .cls _ => 1
  | .rep _ _ _ => 1
  | .wb => 1
  | .grpOpt g => 1 + reListSize g
  | .alt a b => 1 + reListSize a + reListSize b

def reListSize : List RE → Nat
  | [] => 0
  | r :: rs => reSize r + reListSize rs

end

/-- Length of the maximal leading run of characters satisfying `p`. -/
def runLen (p : Char → Bool) : List Char → Nat
  | [] => 0
  | c :: cs => if p c then runLen p cs + 1 else 0

/-- Backtracking matcher with Python `re` semantics for the AST above:
`matchAux fuel res prevW cs` returns the number of characters of `cs`
consumed by the leftmost-greedy anchored match of the sequence `res`, where
`prevW` is the wordness of the character just before `cs` (for `\b`).
Alternatives are tried left first, repetitions longest first. `fuel` only
guards termination; any value above `reListSize res` is enough, since every
recursive call strictly shrinks the sequence's total size. -/
def matchAux : Nat → List RE → Bool → List Char → Option Nat
  | 0, _, _, _ => none
  | _ + 1, [], _, _ => some 0
  | fuel + 1, .wb :: rest, prevW, cs =>
      let curW := match cs with | [] => false | c :: _ => isWordChar c
      if prevW != curW then matchAux fuel rest prevW cs else none
  | fuel + 1, .cls p :: rest, _, cs =>
      match cs with
      | [] => none
      | c :: cs' =>
          if p c then (matchAux fuel rest (isWordChar c) cs').map (· + 1) else none
  | fuel + 1, .grpOpt g :: rest, prevW, cs =>
      (matchAux fuel (g ++ rest) prevW cs) <|> (matchAux fuel rest prevW cs)
  | fuel + 1, .alt a b :: rest, prevW, cs =>
      (matchAux fuel (a ++ rest) prevW cs) <|> (matchAux fuel (b ++ rest) prevW cs)
  | fuel + 1, .rep p lo hi :: rest, prevW, cs =>
      let maxRun := runLen p cs
      let maxK := match hi with | some h => min maxRun h | none => maxRun
      if maxK < lo then none
      else
        (List.range (maxK - lo + 1)).findSome? (fun i =>
          let k := maxK - i
          (matchAux fuel rest
              (if k = 0 then prevW else isWordChar (cs.getD (k - 1) ' '))
              (cs.drop k)).map (· + k))

/-- `re.findall` for a pattern without capturing subgroups: scan left to
right, take non-overlapping leftmost matches, resume after each match and
advance one character past a failed position. -/
def findAllAux (pat : List RE) : Nat → Bool → List Char → List String
  | 0, _, _ => []
  | fuel + 1, prevW, cs =>
      match matchAux (reListSize pat + 1) pat prevW cs with
      | some n =>
          if n = 0 then
            match cs with
            | [] => []
            | c :: rest => findAllAux pat fuel (isWordChar c) rest
          else
            String.mk (cs.take n)
              :: findAllAux pat fuel (isWordChar (cs.getD (n - 1) ' ')) (cs.drop n)
      | none =>
          match cs with
          | [] => []
          | c :: rest => findAllAux pat fuel (isWordChar c) rest

/-- `pattern.findall(text)` for the AST patterns. -/
def pyFindall (pat : List RE) (text : String) : List String :=
  findAllAux pat (text.toList.length + 1) false text.toList

/-- A literal character under `re.IGNORECASE` (`a` given lower-case). -/
def chIC (a : Char) (c : Char) : Bool := c.toLower == a

/-- A case-insensitive literal as a pattern sequence. -/
def litIC (s : String) : List RE := s.toList.map (fun a => RE.cls (chIC a))

/-- `self.email_pattern`:
`\b[A-Za-z0-9._%+-]+@[A-Za-z0-9.-]+\.[A-Z|a-z]{2,}\b` (no flags; the TLD
class literally contains `|`). -/
def email_pattern : List RE :=
  [.wb,
   .rep (fun c => c.isAlphanum || c == '.' || c == '_' || c == '%' || c == '+' || c == '-')
     1 none,
   .cls (· == '@'),
   .rep (fun c => c.isAlphanum || c == '.' || c == '-') 1 none,
   .cls (· == '.'),
   .rep (fun c => c.isAlpha || c == '|') 2 none,
   .wb]

/-- `self.phone_pattern`:
`(\+?\d{1,3}[-.\s]*\d{2,4}[-.\s]*\d{2,4}[-.\s]*\d{2,4})` (the single group
spans the whole pattern, so `findall` yields full matches). -/
def phone_pattern : List RE :=
  [.grpOpt [.cls (· == '+')],
   .rep Char.isDigit 1 (some 3),
   .rep (fun c => c == '-' || c == '.' || isPyWs c) 0 none,
   .rep Char.isDigit 2 (some 4),
   .rep (fun c => c == '-' || c == '.' || isPyWs c) 0 none,
   .rep Char.isDigit 2 (some 4),
   .rep (fun c => c == '-' || c == '.' || isPyWs c) 0 none,
   .rep Char.isDigit 2 (some 4)]

/-- `self.url_pattern` (compiled with `re.IGNORECASE`):
`(?:https?://)?(?:www\.)?[a-zA-Z0-9][a-zA-Z0-9-]*[a-zA-Z0-9]*\.[a-zA-Z]{2,}(?:/[^\s]*)?`. -/
def url_pattern : List RE :=
  [.grpOpt [.cls (chIC 'h'), .cls (chIC 't'), .cls (chIC 't'), .cls (chIC 'p'),
            .grpOpt [.cls (chIC 's')], .cls (· == ':'), .cls (· == '/'), .cls (· == '/')],
   .grpOpt [.cls (chIC 'w'), .cls (chIC 'w'), .cls (chIC 'w'), .cls (· == '.')],
   .cls Char.isAlphanum,
   .rep (fun c => c.isAlphanum || c == '-') 0 none,
   .rep Char.isAlphanum 0 none,
   .cls (· == '.'),
   .rep Char.isAlpha 2 none,
   .grpOpt [.cls (· == '/'), .rep (fun c => !isPyWs c) 0 none]]

/-- The repeated body class of `self.strict_url_pattern`. Its alternation
`[a-zA-Z]|[0-9]|[$-_@.&+]|[!*\\(\\),]|(?:%[0-9a-fA-F][0-9a-fA-F])` reduces
to this single-character union: the `%hh` branch is subsumed because `%`,
digits and letters already lie in the earlier branches, which the engine
prefers, and nothing follows the `+` so no backtracking distinguishes them. -/
def strictUrlChar (c : Char) : Bool :=
  c.isAlphanum || (decide ('$' ≤ c) && decide (c ≤ '_')) || c == '@' || c == '.'
    || c == '&' || c == '+' || c == '!' || c == '*' || c == '\\' || c == '(' || c == ')'
    || c == ','

/-- `self.strict_url_pattern` (no flags): `http[s]?://(...)+`. -/
def strict_url_pattern : List RE :=
  [.cls (· == 'h'), .cls (· == 't'), .cls (· == 't'), .cls (· == 'p'),
   .grpOpt [.cls (· == 's')], .cls (· == ':'), .cls (· == '/'), .cls (· == '/'),
   .rep strictUrlChar 1 none]

/-- Manual Google Scholar search of `extract_platform_urls`
(`scholar\.google\.com[^\s]*`, `re.IGNORECASE`). -/
def scholar_manual_pattern : List RE :=
  litIC "scholar.google.com" ++ [.rep (fun c => !isPyWs c) 0 none]

/-- Manual GitHub search of `extract_platform_urls`
(`(?:github\.com/[^\s]+|[a-zA-Z0-9-]+\.github\.io(?:[^\s]*)?)`, `re.IGNORECASE`). -/
def github_manual_pattern : List RE :=
  [.alt (litIC "github.com/" ++ [.rep (fun c => !isPyWs c) 1 none])
        ([.rep (fun c => c.isAlphanum || c == '-') 1 none] ++ litIC ".github.io"
          ++ [.grpOpt [.rep (fun c => !isPyWs c) 0 none]])]

/-- Manual LinkedIn search of `extract_platform_urls`
(`linkedin\.com[^\s]*`, `re.IGNORECASE`). -/
def linkedin_manual_pattern : List RE :=
  litIC "linkedin.com" ++ [.rep (fun c => !isPyWs c) 0 none]

/-- Deduplication keeping first occurrences, modelling Python's
`list(set(...))` (whose iteration order is unspecified) deterministically. -/
def pyDedup : List String → List String
  | [] => []
  | x :: xs => x :: (pyDedup xs).filter (fun y => decide (y ≠ x))

/-- The `university_keywords` list of `extract_contact_info`. -/
def university_keywords : List String :=
  ["uni-", "university", "edu", "ac.", "informatik", "cs."]

/-- Whether an email counts as personal: no university keyword occurs in its
lower-cased text (`extract_contact_info`, lines 95-101). -/
def isPersonalEmail (email : String) : Bool :=
  !(university_keywords.any (fun k => containsSub k (pyLower email)))

/-- Lines 90-104 of `extract_contact_info`: keep every personal match; if
there is none, fall back to `all_emails[:1]`, the first raw match only. -/
def emailsToUse (all_emails : List String) : List String :=
  let personal_emails := all_emails.filter isPersonalEmail
  if personal_emails ≠ [] then personal_emails else all_emails.take 1

/-- The email component of `extract_contact_info` on the document text. -/
def extractEmails (text : String) : List String :=
  pyDedup (emailsToUse (pyFindall email_pattern text))

/-- Python `str.strip()` on a character list. -/
def pyStrip (s : List Char) : List Char :=
  ((s.dropWhile isPyWs).reverse.dropWhile isPyWs).reverse

/-- `re.sub(r"\s+", " ", s)`: collapse every whitespace run to one space
(the flag tracks whether the previous character was inside a run). -/
def collapseWsAux : Bool → List Char → List Char
  | _, [] => []
  | prevSp, c :: rest =>
      if isPyWs c then
        if prevSp then collapseWsAux true rest else ' ' :: collapseWsAux true rest
      else c :: collapseWsAux false rest

/-- `re.sub(r"\s+", " ", phone.strip())` of the phone-cleaning loop. -/
def cleanPhone (s : String) : String :=
  String.mk (collapseWsAux false (pyStrip s.toList))

/-- Length after `replace(' ','').replace('-','').replace('.','')`. -/
def strippedLen (s : String) : Nat :=
  (s.toList.filter (fun c => !(c == ' ' || c == '-' || c == '.'))).length

/-- The German mobile-prefix markers of the phone-partition loop. -/
def mobile_markers : List String :=
  ["176", "177", "178", "179", "151", "152", "157", "159"]

/-- Whether a cleaned phone contains one of the mobile markers. -/
def isMobilePhone (s : String) : Bool := mobile_markers.any (fun m => containsSub m s)

/-- Lines 109-127 of `extract_contact_info`: clean each raw phone match,
keep those whose separator-stripped length is at least 10, and partition
into (mobile-like, office-like). -/
def phonePartition : List String → List String × List String
  | [] => ([], [])
  | ph :: rest =>
      let pr := phonePartition rest
      let cleaned := cleanPhone ph
      if 10 ≤ strippedLen cleaned then
        if isMobilePhone cleaned then (cleaned :: pr.1, pr.2) else (pr.1, cleaned :: pr.2)
      else pr

/-- Prefer the mobile-like phones, falling back to the office-like ones. -/
def phonesToUse (phones : List String) : List String :=
  let pr := phonePartition phones
  if pr.1 ≠ [] then pr.1 else pr.2

/-- The phone component of `extract_contact_info` on the document text. -/
def extractPhones (text : String) : List String :=
  pyDedup (phonesToUse (pyFindall phone_pattern text))

/-- Python `text.split('\n')`. -/
def splitLines (s : String) : List String := s.splitOn "\n"

/-- Python `str.strip()` on a string. -/
def pyStripStr (s : String) : String := String.mk (pyStrip s.toList)

/-- Python `str.upper()` on the ASCII range. -/
def pyUpper (s : String) : String := String.mk (s.toList.map Char.toUpper)

/-- Whether `phrase` (given lower-case) is a prefix of `cs` up to
`re.IGNORECASE`. -/
def startsIC : List Char → List Char → Bool
  | [], _ => true
  | _ :: _, [] => false
  | a :: as, b :: bs => (b.toLower == a) && startsIC as bs

/-- The tail `\s*(.+)` of a signature pattern matched at `r` with Python's
greedy backtracking: take the longest whitespace run after which a
non-newline character remains, and capture up to the end of that line.
Returns the consumed length and the capture. -/
def wsDotTry (r : List Char) : Nat → Option (Nat × List Char)
  | 0 =>
      match r with
      | [] => none
      | c :: _ =>
          if c == '\n' then none
          else
            let cap := r.takeWhile (fun d => !(d == '\n'))
            some (cap.length, cap)
  | k + 1 =>
      let rest := r.drop (k + 1)
      match rest with
      | [] => wsDotTry r k
      | c :: _ =>
          if c == '\n' then wsDotTry r k
          else
            let cap := rest.takeWhile (fun d => !(d == '\n'))
            some (k + 1 + cap.length, cap)

/-- Anchored match of the signature pattern `phrase,?\s*(.+)` at `cs`,
trying the comma-consuming alternative first, as the regex engine does. -/
def sigMatchAt (phrase : List Char) (cs : List Char) : Option (Nat × List Char) :=
  if startsIC phrase cs then
    let rest0 := cs.drop phrase.length
    let without := (wsDotTry rest0 (runLen isPyWs rest0)).map
      (fun v => (phrase.length + v.1, v.2))
    match rest0 with
    | ',' :: rest1 =>
        match wsDotTry rest1 (runLen isPyWs rest1) with
        | some v => some (phrase.length + 1 + v.1, v.2)
        | none => without
    | _ => without
  else none

/-- `re.findall(phrase + r",?\s*(.+)", text, re.IGNORECASE | re.MULTILINE)`:
scan for non-overlapping matches, collecting the captures. -/
def sigScanAux (phrase : List Char) : Nat → List Char → List (List Char)
  | 0, _ => []
  | _ + 1, [] => []
  | fuel + 1, c :: rest =>
      match sigMatchAt phrase (c :: rest) with
      | some v =>
          if v.1 = 0 then sigScanAux phrase fuel rest
          else v.2 :: sigScanAux phrase fuel ((c :: rest).drop v.1)
      | none => sigScanAux phrase fuel rest

/-- The signature phrases of the six `signature_patterns`, in source order. -/
def signature_phrases : List String :=
  ["best regards", "sincerely", "regards", "yours", "thank you", "cheers"]

/-- The closing-salutation stop words filtered out of a signature name. -/
def sig_stop_words : List String :=
  ["sincerely", "regards", "best", "yours", "truly", "faithfully"]

/-- The per-match qualification step of the signature pass (lines 150-162):
strip, require 2-4 words, drop stop words, require 2 left, upper-case. -/
def nameFromSigMatch (m : String) : Option String :=
  let m' := pyStripStr m
  let words := pySplitWs m'
  if 2 ≤ words.length ∧ words.length ≤ 4 then
    let filtered_words := words.filter (fun w => !(sig_stop_words.contains (pyLower w)))
    if 2 ≤ filtered_words.length then
      some (pyUpper (String.intercalate " " filtered_words))
    else none
  else none

/-- Pass 1 of the name heuristic (lines 136-164): first signature pattern,
in order, whose matches yield a qualifying name. -/
def signatureName (text_lower : List Char) : Option String :=
  signature_phrases.findSome? (fun phrase =>
    (sigScanAux phrase.toList (text_lower.length + 1) text_lower).findSome?
      (fun cap => nameFromSigMatch (String.mk cap)))

/-- Whether `suf` is a suffix of `s`, on character lists. -/
def listEnds (suf s : List Char) : Bool := listStarts suf.reverse s.reverse

/-- The academic-title stop words of the first-lines pass. -/
def title_stop_words : List String :=
  ["master", "of", "sciences", "bachelor", "phd", "dr.", "prof.", "msc", "bsc",
   "msc.", "bsc."]

/-- Pass 2 of the name heuristic (lines 167-184): first of the first five
lines that is at least two words, has no digit, `@` or `http`, does not end
in `germany`/`university`, has only words longer than one character, and
still has two words after dropping academic titles. -/
def firstLinesName (lines : List String) : Option String :=
  (lines.take 5).findSome? (fun line0 =>
    let line := pyStripStr line0
    let words := pySplitWs line
    if line ≠ "" ∧ 2 ≤ words.length then
      if (!(line.toList.any Char.isDigit))
          && !(containsSub "@" line)
          && !(containsSub "http" (pyLower line))
          && !(listEnds "germany".toList (pyLower line).toList
                || listEnds "university".toList (pyLower line).toList)
          && words.all (fun w => 1 < w.length) then
        let filtered_words := words.filter (fun w => !(title_stop_words.contains (pyLower w)))
        if 2 ≤ filtered_words.length then some (String.intercalate " " filtered_words)
        else none
      else none
    else none)

/-- The full name heuristic of `extract_contact_info` (lines 132-184):
signature pass over the lowered text, then first-lines pass, else empty. -/
def extractName (text : String) : String :=
  match signatureName (pyLower text).toList with
  | some n => n
  | none =>
      match firstLinesName (splitLines text) with
      | some n => n
      | none => ""

/-- The successful payload of `extract_contact_info`. -/
structure ContactInfo where
  name : String
  emails : List String
  phones : List String
  urls : List String
deriving DecidableEq, Repr

/-- The pure text-processing core of `extract_contact_info` (its `try` body,
given the already extracted document text). -/
def contactInfoCore (text : String) : ContactInfo :=
  { name := extractName text
    emails := extractEmails text
    phones := extractPhones text
    urls := pyDedup (pyFindall url_pattern text) }

/-- The result dictionary of `extract_contact_info`: the contact info with
the file path, or an error record still carrying the file path. -/
inductive ContactResult where
  | ok (info : ContactInfo) (file_path : String)
  | err (error : String) (file_path : String)
deriving DecidableEq, Repr

/-- The `file_path` key present in both shapes of the result. -/
def ContactResult.path : ContactResult → String
  | .ok _ p => p
  | .err _ p => p

/-- `PDFExtractor.extract_contact_info` (lines 74-197) with its `try/except`
boundary: the fallible production of the document text is an `Except`
value, and any fault is caught and turned into an error record. -/
def extract_contact_info (pdf_path : String) (attempt : Except String String) :
    ContactResult :=
  match attempt with
  | .ok text => .ok (contactInfoCore text) pdf_path
  | .error e =>
      .err ("Error extracting contact info from " ++ pdf_path ++ ": " ++ e) pdf_path

/-- The default `skill_keywords` list of `extract_skills_keywords`. -/
def default_skill_keywords : List String :=
  ["python", "java", "javascript", "typescript", "react", "angular", "vue",
   "node.js", "express", "django", "flask", "fastapi", "sql", "mongodb",
   "postgresql", "mysql", "redis", "docker", "kubernetes", "aws", "azure",
   "gcp", "git", "jenkins", "ci/cd", "machine learning", "data science",
   "artificial intelligence", "tensorflow", "pytorch", "pandas", "numpy",
   "html", "css", "bootstrap", "tailwind", "scss", "webpack", "api",
   "rest", "graphql", "microservices", "agile", "scrum", "devops"]

/-- `PDFExtractor.extract_skills_keywords` (lines 199-231) on the text:
keywords occurring (lower-cased, substring) in the lowered text, in
vocabulary order. -/
def extract_skills_keywords (text : String) (skill_keywords : List String) : List String :=
  skill_keywords.filter (fun skill => containsSub (pyLower skill) (pyLower text))

/-- Python `os.path.basename` for forward-slash paths. -/
def basename (p : String) : String :=
  match (p.splitOn "/").getLast? with
  | some s => s
  | none => p

/-- The `statistics` dictionary of `summarize_pdf`. -/
structure DocStatistics where
  word_count : Nat
  line_count : Nat
  text_length : Nat
deriving DecidableEq, Repr

/-- The successful summary dictionary of `summarize_pdf`. -/
structure DocumentSummary where
  filename : String
  file_path : String
  contact_info : ContactResult
  skills_found : List String
  statistics : DocStatistics
  text_preview : String
deriving DecidableEq, Repr

/-- The `try` body of `summarize_pdf` (lines 243-266) given the text. -/
def summarizeCore (pdf_path text : String) : DocumentSummary :=
  { filename := basename pdf_path
    file_path := pdf_path
    contact_info := extract_contact_info pdf_path (.ok text)
    skills_found := extract_skills_keywords text default_skill_keywords
    statistics :=
      { word_count := (pySplitWs text).length
        line_count := (splitLines text).length
        text_length := text.length }
    text_preview :=
      if text.length > 500 then String.mk (text.toList.take 500) ++ "..." else text }

/-- The result of `summarize_pdf`: a summary, or an error record carrying
the filename, the path and an error string. -/
inductive SummarizeResult where
  | ok (s : DocumentSummary)
  | err (filename : String) (file_path : String) (error : String)
deriving DecidableEq, Repr

/-- The `file_path` key present in both shapes of the result. -/
def SummarizeResult.path : SummarizeResult → String
  | .ok s => s.file_path
  | .err _ p _ => p

/-- `PDFExtractor.summarize_pdf` (lines 233-272) with its `try/except`
boundary. -/
def summarize_pdf (pdf_path : String) (attempt : Except String String) :
    SummarizeResult :=
  match attempt with
  | .ok text => .ok (summarizeCore pdf_path text)
  | .error e =>
      .err (basename pdf_path) pdf_path ("Error summarizing " ++ pdf_path ++ ": " ++ e)

/-- The per-document loop of `summarize_all_pdfs_in_directory` (lines
642-676): one summary record per document, faults isolated per document. -/
def summarizeBatch (docs : List (String × Except String String)) : List SummarizeResult :=
  docs.map (fun d => summarize_pdf d.1 d.2)

/-- Whether a summary record is an error record. -/
def isErrResult : SummarizeResult → Bool
  | .ok _ => false
  | .err _ _ _ => true

/-- The `platform_urls` dictionary of `extract_platform_urls`. -/
structure PlatformUrls where
  google_scholar : List String
  github : List String
  linkedin : List String
deriving DecidableEq, Repr

/-- Whether a URL already carries a scheme (`startswith(('http://', 'https://'))`). -/
def startsWithScheme (url : String) : Bool :=
  listStarts "http://".toList url.toList || listStarts "https://".toList url.toList

/-- The per-bucket cleaning loop of `extract_platform_urls` (lines 363-386):
prefix scheme-less URLs with `https://`, keep those containing the
platform's defining substring, deduplicate. -/
def cleanBucket (keep : String → Bool) (urls : List String) : List String :=
  pyDedup ((urls.map (fun url => if startsWithScheme url then url else "https://" ++ url)).filter keep)

/-- Defining-substring filter of the Google Scholar bucket. -/
def scholarKeep (url : String) : Bool := containsSub "scholar.google.com" (pyLower url)

/-- Defining-substring filter of the GitHub bucket. -/
def githubKeep (url : String) : Bool :=
  containsSub "github.com/" (pyLower url) || containsSub ".github.io" (pyLower url)

/-- Defining-substring filter of the LinkedIn bucket. -/
def linkedinKeep (url : String) : Bool := containsSub "linkedin.com" (pyLower url)

/-- First classification test of the combined-URL loop (lines 348-361). -/
def isScholarUrl (url : String) : Bool :=
  containsSub "scholar" (pyLower url) && containsSub "google" (pyLower url)

/-- Second (`elif`) classification test of the combined-URL loop. -/
def isGithubUrl (url : String) : Bool :=
  containsSub "github.com" (pyLower url) || listEnds ".github.io".toList (pyLower url).toList

/-- Third (`elif`) classification test of the combined-URL loop. -/
def isLinkedinUrl (url : String) : Bool := containsSub "linkedin.com" (pyLower url)

/-- `PDFExtractor.extract_platform_urls` (lines 274-396) given the document
text: manual per-platform searches, then classification of the combined
general URL matches through the `if`/`elif` chain, then bucket cleaning. -/
def extractPlatformUrlsCore (text : String) : PlatformUrls :=
  let all_urls := pyFindall url_pattern text
  let strict_urls := pyFindall strict_url_pattern text
  let combined_urls := pyDedup (all_urls ++ strict_urls)
  let scholar_manual := pyFindall scholar_manual_pattern text
  let github_manual := pyFindall github_manual_pattern text
  let linkedin_manual := pyFindall linkedin_manual_pattern text
  let scholar0 := scholar_manual ++ combined_urls.filter isScholarUrl
  let github0 := github_manual
    ++ combined_urls.filter (fun u => !isScholarUrl u && isGithubUrl u)
  let linkedin0 := linkedin_manual
    ++ combined_urls.filter (fun u => !isScholarUrl u && !isGithubUrl u && isLinkedinUrl u)
  { google_scholar := cleanBucket scholarKeep scholar0
    github := cleanBucket githubKeep github0
    linkedin := cleanBucket linkedinKeep linkedin0 }

end PDFExtraction

namespace CandidateRanking

theorem rankLE_trans : ∀ a b c : RankedResult, rankLE a b → rankLE b c → rankLE a c := by
  intro a b c h1 h2
  simp only [rankLE, decide_eq_true_eq] at h1 h2 ⊢
  exact le_trans h2 h1

theorem rankLE_total : ∀ a b : RankedResult, rankLE a b || rankLE b a := by
  intro a b
  simp only [rankLE, Bool.or_eq_true, decide_eq_true_eq]
  exact le_total b.overall_score a.overall_score

theorem map_candidate_scored (job : JobDescription) :
    ∀ l : List Candidate, (l.map (scoreCandidate job)).map (fun r => r.candidate) = l := by
  intro l
  induction l with
  | nil => rfl
  | cons c t ih =>
    simp only [List.map_cons]
    rw [ih]
    rfl

/-- C1: `rank_candidates` produces exactly one result per input candidate (a
permutation of the scored table, nothing filtered or duplicated), the output
is ordered descending by overall score, and candidates with equal overall
scores keep their input relative order (the filter at each score value is
unchanged by the sort). -/
theorem rank_candidates_one_per_candidate_sorted_stable
    (candidates : List Candidate) (job : JobDescription) :
    ((rank_candidates candidates job).map (fun r => r.candidate)).Perm candidates
    ∧ (rank_candidates candidates job).Pairwise
        (fun a b => b.overall_score ≤ a.overall_score)
    ∧ ∀ v : ℚ,
        (rank_candidates candidates job).filter (fun r => decide (r.overall_score = v))
          = (candidates.map (scoreCandidate job)).filter
              (fun r => decide (r.overall_score = v)) := by
  have hperm := List.mergeSort_perm (candidates.map (scoreCandidate job)) rankLE
  refine ⟨?_, ?_, ?_⟩
  · have h1 := hperm.map (fun r => r.candidate)
    rw [map_candidate_scored job candidates] at h1
    exact h1
  · have hs := List.sorted_mergeSort rankLE_trans rankLE_total
      (candidates.map (scoreCandidate job))
    exact hs.imp (fun h => by simpa [rankLE, decide_eq_true_eq] using h)
  · intro v
    set p : RankedResult → Bool := fun r => decide (r.overall_score = v) with hp
    set scored := candidates.map (scoreCandidate job) with hscored
    have hpair : (scored.filter p).Pairwise (fun a b => rankLE a b = true) := by
      apply List.pairwise_of_forall_mem_list
      intro a ha b hb
      have hav : a.overall_score = v := by
        have := List.of_mem_filter ha
        simpa [hp] using this
      have hbv : b.overall_score = v := by
        have := List.of_mem_filter hb
        simpa [hp] using this
      simp [rankLE, hav, hbv]
    have hsub : List.Sublist (scored.filter p) scored := List.filter_sublist scored
    have hc : List.Sublist (scored.filter p) (scored.mergeSort rankLE) :=
      List.sublist_mergeSort rankLE_trans rankLE_total hpair hsub
    have hfe : (scored.filter p).filter p = scored.filter p :=
      List.filter_eq_self.mpr (fun a ha => List.of_mem_filter ha)
    have hsub2 : List.Sublist (scored.filter p) ((scored.mergeSort rankLE).filter p) := by
      rw [← hfe]
      exact hc.filter p
    have hperm2 : ((scored.mergeSort rankLE).filter p).Perm (scored.filter p) :=
      hperm.filter p
    have := hsub2.eq_of_length hperm2.length_eq.symm
    exact this.symm

/-- C2: every result stored by `rank_candidates` has its overall score equal
to the fixed weighting 0.4/0.25/0.20/0.15 of its stored four sub-scores. -/
theorem rank_candidates_overall_weights (candidates : List Candidate) (job : JobDescription) :
    ∀ r ∈ rank_candidates candidates job,
      r.overall_score = 0.4 * r.scores.skills + 0.25 * r.scores.experience
        + 0.20 * r.scores.education + 0.15 * r.scores.role_relevance := by
  intro r hr
  rw [rank_candidates, List.mem_mergeSort] at hr
  obtain ⟨c, _, rfl⟩ := List.mem_map.mp hr
  simp only [scoreCandidate]
  ring

/-- Witness for C2 at a concrete candidate/job pair. -/
theorem rank_candidates_overall_weights_witness :
    scoreCandidate wJob wCandidate ∈ rank_candidates [wCandidate] wJob
    ∧ (scoreCandidate wJob wCandidate).overall_score
        = 0.4 * (scoreCandidate wJob wCandidate).scores.skills
          + 0.25 * (scoreCandidate wJob wCandidate).scores.experience
          + 0.20 * (scoreCandidate wJob wCandidate).scores.education
          + 0.15 * (scoreCandidate wJob wCandidate).scores.role_relevance :=
  have hm : scoreCandidate wJob wCandidate ∈ rank_candidates [wCandidate] wJob := by
    simp [rank_candidates]
  ⟨hm, rank_candidates_overall_weights [wCandidate] wJob _ hm⟩

end CandidateRanking

namespace CandidateRanking

theorem skills_score_eq (cand req pref : List String) :
    (calculate_skills_match cand req pref).1
      = subRatio cand req * 0.7 + subRatio cand pref * 0.3 := rfl

theorem skills_required_score_eq (cand req pref : List String) :
    (calculate_skills_match cand req pref).2.required_score = subRatio cand req := rfl

theorem subRatio_nonneg (cand l : List String) : 0 ≤ subRatio cand l := by
  unfold subRatio
  split
  · positivity
  · exact le_refl 0

theorem subRatio_le_one (cand l : List String) : subRatio cand l ≤ 1 := by
  unfold subRatio
  split
  · rename_i h
    have hpos : (0 : ℚ) < ((l.map pyLower).length : ℚ) := by
      have := List.length_pos.mpr h
      exact_mod_cast this
    rw [div_le_one hpos]
    exact_mod_cast List.countP_le_length _
  · exact zero_le_one

theorem subRatio_of_no_match (cand l : List String) (h : l ≠ [])
    (hnone : ∀ s ∈ l, (cand.map pyLower).contains (pyLower s) = false) :
    subRatio cand l = 0 := by
  unfold subRatio
  rw [if_pos (by simpa using h)]
  have : (l.map pyLower).countP
      (fun skill => (cand.map pyLower).contains skill) = 0 := by
    rw [List.countP_eq_zero]
    intro a ha
    obtain ⟨s, hs, rfl⟩ := List.mem_map.mp ha
    simpa using hnone s hs
  rw [this]
  simp

theorem subRatio_of_all_match (cand l : List String) (h : l ≠ [])
    (hall : ∀ s ∈ l, (cand.map pyLower).contains (pyLower s) = true) :
    subRatio cand l = 1 := by
  unfold subRatio
  rw [if_pos (by simpa using h)]
  have hcnt : (l.map pyLower).countP
      (fun skill => (cand.map pyLower).contains skill) = (l.map pyLower).length := by
    rw [List.countP_eq_length]
    intro a ha
    obtain ⟨s, hs, rfl⟩ := List.mem_map.mp ha
    simpa using hall s hs
  rw [hcnt]
  have hne : ((l.map pyLower).length : ℚ) ≠ 0 := by
    have := List.length_pos.mpr (fun hc : l.map pyLower = [] => h (by simpa using hc))
    exact_mod_cast Nat.pos_iff_ne_zero.mp this
  exact div_self hne

theorem subRatio_nil (cand : List String) : subRatio cand [] = 0 := rfl

/-- C3 counterexample: with empty candidate, required and preferred lists,
every required and every preferred skill occurs vacuously in the candidate's
skills, yet the skill-match score is 0, not 1 as the claim's all-present
clause demands. -/
theorem calculate_skills_match_vacuous_cex :
    (∀ s ∈ ([] : List String), (([] : List String).map pyLower).contains (pyLower s) = true)
    ∧ (calculate_skills_match [] [] []).1 = 0
    ∧ (calculate_skills_match [] [] []).1 ≠ 1 := by
  refine ⟨by simp, ?_, ?_⟩ <;>
    rw [skills_score_eq, subRatio_nil] <;> norm_num

/-- C3 (amended): the skill-match score is in [0,1]; it is 0 when the
required list is non-empty and no required or preferred skill occurs
(case-insensitively, by exact equality) in the candidate's skills; it is 1
when both lists are non-empty and every required and every preferred skill
occurs; and for an empty required list the required sub-ratio is defined as
0 rather than failing. -/
theorem calculate_skills_match_spec (cand req pref : List String) :
    (0 ≤ (calculate_skills_match cand req pref).1
      ∧ (calculate_skills_match cand req pref).1 ≤ 1)
    ∧ (req ≠ [] →
        (∀ s ∈ req, (cand.map pyLower).contains (pyLower s) = false) →
        (∀ s ∈ pref, (cand.map pyLower).contains (pyLower s) = false) →
        (calculate_skills_match cand req pref).1 = 0)
    ∧ (req ≠ [] → pref ≠ [] →
        (∀ s ∈ req, (cand.map pyLower).contains (pyLower s) = true) →
        (∀ s ∈ pref, (cand.map pyLower).contains (pyLower s) = true) →
        (calculate_skills_match cand req pref).1 = 1)
    ∧ (req = [] → (calculate_skills_match cand req pref).2.required_score = 0) := by
  refine ⟨⟨?_, ?_⟩, ?_, ?_, ?_⟩
  · rw [skills_score_eq]
    have h1 := subRatio_nonneg cand req
    have h2 := subRatio_nonneg cand pref
    linarith
  · rw [skills_score_eq]
    have h1 := subRatio_le_one cand req
    have h2 := subRatio_le_one cand pref
    have h3 := subRatio_nonneg cand req
    have h4 := subRatio_nonneg cand pref
    linarith
  · intro hreq hnr hnp
    rw [skills_score_eq, subRatio_of_no_match cand req hreq hnr]
    by_cases hp : pref = []
    · subst hp
      rw [subRatio_nil]
      norm_num
    · rw [subRatio_of_no_match cand pref hp hnp]
      norm_num
  · intro hreq hpref har hap
    rw [skills_score_eq, subRatio_of_all_match cand req hreq har,
      subRatio_of_all_match cand pref hpref hap]
    norm_num
  · intro hreq
    subst hreq
    rw [skills_required_score_eq, subRatio_nil]

/-- Witness for C3 at concrete skill lists: both lists non-empty, all skills
present, score 1. -/
theorem calculate_skills_match_spec_witness :
    (calculate_skills_match ["Python", "AWS"] ["python"] ["aws"]).1 = 1 :=
  (calculate_skills_match_spec ["Python", "AWS"] ["python"] ["aws"]).2.2.1
    (by decide) (by decide) (by decide) (by decide)

end CandidateRanking

namespace CandidateRanking

theorem education_score_eq (c r : String) :
    (calculate_education_score c r).1
      = min 1.0 (if degreeLevel c ≥ degreeLevel r then
          0.8 + ((degreeLevel c : ℚ) - (degreeLevel r : ℚ)) * 0.1
        else
          max 0.0 (0.8 - ((degreeLevel r : ℚ) - (degreeLevel c : ℚ)) * 0.2)) := rfl

theorem education_levels_eq (c r : String) :
    (calculate_education_score c r).2.candidate_level = degreeLevel c
    ∧ (calculate_education_score c r).2.required_level = degreeLevel r :=
  ⟨rfl, rfl⟩

/-- C4: the education scorer gives exactly 1.0 to a "PhD" candidate (level 4)
against a "BS" requirement (level 2), and exactly 0.2 to a candidate with no
recognized keyword (level 0) against a "Master" requirement (level 3),
following the formula `0.8 + (cl-rl)*0.1` capped at 1.0 when the candidate
meets the level and `max 0 (0.8 - (rl-cl)*0.2)` otherwise. -/
theorem calculate_education_score_cases :
    (calculate_education_score "PhD" "BS").1 = 1
    ∧ (calculate_education_score "PhD" "BS").2.candidate_level = 4
    ∧ (calculate_education_score "PhD" "BS").2.required_level = 2
    ∧ (calculate_education_score "High School" "Master").1 = 0.2
    ∧ (calculate_education_score "High School" "Master").2.candidate_level = 0
    ∧ (calculate_education_score "High School" "Master").2.required_level = 3
    ∧ ∀ c r : String, (calculate_education_score c r).1
        = if degreeLevel r ≤ degreeLevel c then
            min 1.0 (0.8 + ((degreeLevel c : ℚ) - (degreeLevel r : ℚ)) * 0.1)
          else
            max 0.0 (0.8 - ((degreeLevel r : ℚ) - (degreeLevel c : ℚ)) * 0.2) := by
  have hphd : degreeLevel "PhD" = 4 := by decide
  have hbs : degreeLevel "BS" = 2 := by decide
  have hhs : degreeLevel "High School" = 0 := by decide
  have hma : degreeLevel "Master" = 3 := by decide
  have formula : ∀ c r : String, (calculate_education_score c r).1
      = if degreeLevel r ≤ degreeLevel c then
          min 1.0 (0.8 + ((degreeLevel c : ℚ) - (degreeLevel r : ℚ)) * 0.1)
        else
          max 0.0 (0.8 - ((degreeLevel r : ℚ) - (degreeLevel c : ℚ)) * 0.2) := by
    intro c r
    rw [education_score_eq]
    by_cases h : degreeLevel r ≤ degreeLevel c
    · rw [if_pos h, if_pos h]
    · rw [if_neg h, if_neg h]
      have hlt : (degreeLevel c : ℚ) < (degreeLevel r : ℚ) := by
        exact_mod_cast Nat.lt_of_not_le h
      have hnn : (0:ℚ) ≤ ((degreeLevel r : ℚ) - (degreeLevel c : ℚ)) * 0.2 := by
        nlinarith
      refine min_eq_right ?_
      refine max_le (by norm_num) ?_
      nlinarith
  refine ⟨?_, (education_levels_eq _ _).1.trans hphd, (education_levels_eq _ _).2.trans hbs,
    ?_, (education_levels_eq _ _).1.trans hhs, (education_levels_eq _ _).2.trans hma,
    formula⟩
  · rw [formula, hphd, hbs]
    norm_num
  · rw [formula, hhs, hma]
    norm_num

/-- C10: with an empty previous-roles list the role-relevance scorer returns
exactly 0.3 for every job title, and its breakdown reports zero role
matches. -/
theorem calculate_role_relevance_no_roles (job_title : String) :
    calculate_role_relevance [] job_title
      = (0.3, { previous_roles := [], job_title := job_title,
                role_matches := 0, score := 0.3 }) := rfl

end CandidateRanking

namespace PDFExtraction

open CandidateRanking (pyLower containsSub)

theorem mem_pyDedup {y : String} : ∀ {l : List String}, y ∈ pyDedup l ↔ y ∈ l := by
  intro l
  induction l with
  | nil => simp [pyDedup]
  | cons x xs ih =>
    simp only [pyDedup, List.mem_cons, List.mem_filter, decide_eq_true_eq]
    constructor
    · rintro (rfl | ⟨hy, _⟩)
      · exact Or.inl rfl
      · exact Or.inr (ih.mp hy)
    · rintro (rfl | hy)
      · exact Or.inl rfl
      · by_cases hxy : y = x
        · exact Or.inl hxy
        · exact Or.inr ⟨ih.mpr hy, hxy⟩

/-- C5: on every text, the email policy keeps exactly the personal matches
when at least one exists and otherwise only the first raw match; on the
spec's example text the result is exactly `jane.doe@gmail.com`. -/
theorem extract_contact_info_email_policy :
    (∀ text : String,
      ((pyFindall email_pattern text).filter isPersonalEmail ≠ [] →
        extractEmails text
          = pyDedup ((pyFindall email_pattern text).filter isPersonalEmail))
      ∧ ((pyFindall email_pattern text).filter isPersonalEmail = [] →
        extractEmails text = pyDedup ((pyFindall email_pattern text).take 1)))
    ∧ extractEmails "Contact: jane.doe@gmail.com or j.doe@university.edu"
        = ["jane.doe@gmail.com"] := by
  constructor
  · intro text
    constructor
    · intro h
      simp only [extractEmails, emailsToUse]
      rw [if_pos h]
    · intro h
      simp only [extractEmails, emailsToUse]
      rw [if_neg (by simpa using h)]
  · decide

/-- Witness for C5 on the example text, where a personal match exists. -/
theorem extract_contact_info_email_policy_witness :
    extractEmails "Contact: jane.doe@gmail.com or j.doe@university.edu"
      = pyDedup ((pyFindall email_pattern
          "Contact: jane.doe@gmail.com or j.doe@university.edu").filter isPersonalEmail) :=
  (extract_contact_info_email_policy.1 _).1 (by decide)

theorem phonePartition_min_length : ∀ l : List String,
    (∀ p ∈ (phonePartition l).1, 10 ≤ strippedLen p)
    ∧ (∀ p ∈ (phonePartition l).2, 10 ≤ strippedLen p) := by
  intro l
  induction l with
  | nil => simp [phonePartition]
  | cons ph rest ih =>
    simp only [phonePartition]
    split_ifs with h10 hm
    · refine ⟨?_, ih.2⟩
      intro p hp
      rcases List.mem_cons.mp hp with rfl | hp'
      · exact h10
      · exact ih.1 p hp'
    · refine ⟨ih.1, ?_⟩
      intro p hp
      rcases List.mem_cons.mp hp with rfl | hp'
      · exact h10
      · exact ih.2 p hp'
    · exact ih

theorem phonesToUse_min_length (l : List String) (p : String)
    (hp : p ∈ phonesToUse l) : 10 ≤ strippedLen p := by
  simp only [phonesToUse] at hp
  by_cases h : (phonePartition l).1 ≠ []
  · rw [if_pos h] at hp
    exact (phonePartition_min_length l).1 p hp
  · rw [if_neg h] at hp
    exact (phonePartition_min_length l).2 p hp

/-- C6 counterexample: the claim as stated is false. On the text
`"+123 45 67 89"` the extracted phone survives the filter (its
separator-stripped length is 10 thanks to the leading `+`) yet its digit
count is only 9, below the minimum the claim asserts. -/
theorem extractPhones_digit_count_cex :
    extractPhones "+123 45 67 89" = ["+123 45 67 89"]
    ∧ (("+123 45 67 89").toList.filter Char.isDigit).length = 9 := by
  constructor
  · decide
  · decide

/-- C6 (amended): every phone string in the contact-extraction result has at
least 10 characters after stripping spaces, hyphens and dots; the leading
`+` counts toward that length, so a candidate with 9 digits and a `+`
is retained. -/
theorem extractPhones_min_length (text : String) :
    ∀ p ∈ extractPhones text, 10 ≤ strippedLen p := by
  intro p hp
  simp only [extractPhones] at hp
  exact phonesToUse_min_length _ p (mem_pyDedup.mp hp)

/-- Witness for C6 (amended) on a concrete mobile number. -/
theorem extractPhones_min_length_witness :
    "+49 176 1234 5678" ∈ extractPhones "call +49 176 1234 5678 now"
    ∧ 10 ≤ strippedLen "+49 176 1234 5678" :=
  have hm : "+49 176 1234 5678" ∈ extractPhones "call +49 176 1234 5678 now" := by decide
  ⟨hm, extractPhones_min_length _ _ hm⟩

theorem listStarts_append (a b : List Char) : CandidateRanking.listStarts a (a ++ b) = true := by
  induction a with
  | nil => rfl
  | cons c cs ih => simp [CandidateRanking.listStarts, ih]

theorem startsWithScheme_addScheme (v : String) :
    startsWithScheme (if startsWithScheme v then v else "https://" ++ v) = true := by
  by_cases h : startsWithScheme v = true
  · rw [if_pos h]
    exact h
  · rw [if_neg h]
    have hdata : ("https://" ++ v).toList = "https://".toList ++ v.toList :=
      String.data_append _ _
    unfold startsWithScheme
    rw [hdata]
    exact Bool.or_eq_true _ _ |>.mpr (Or.inr (listStarts_append _ _))

theorem mem_cleanBucket (keep : String → Bool) (urls : List String) (u : String)
    (hu : u ∈ cleanBucket keep urls) : startsWithScheme u = true ∧ keep u = true := by
  simp only [cleanBucket] at hu
  have hu' := mem_pyDedup.mp hu
  have hpair := List.mem_filter.mp hu'
  obtain ⟨v, _, rfl⟩ := List.mem_map.mp hpair.1
  exact ⟨startsWithScheme_addScheme v, hpair.2⟩

/-- C7: every URL in every platform bucket starts with `http://` or
`https://` and contains the platform's defining substring; on the spec's
example text the buckets are exactly as claimed. -/
theorem extract_platform_urls_spec :
    (∀ text : String,
      (∀ u ∈ (extractPlatformUrlsCore text).google_scholar,
        startsWithScheme u = true
          ∧ containsSub "scholar.google.com" (pyLower u) = true)
      ∧ (∀ u ∈ (extractPlatformUrlsCore text).github,
        startsWithScheme u = true
          ∧ (containsSub "github.com/" (pyLower u) = true
              ∨ containsSub ".github.io" (pyLower u) = true))
      ∧ (∀ u ∈ (extractPlatformUrlsCore text).linkedin,
        startsWithScheme u = true
          ∧ containsSub "linkedin.com" (pyLower u) = true))
    ∧ extractPlatformUrlsCore
        "See github.com/alice and scholar.google.com/citations?user=xyz for more"
      = { google_scholar := ["https://scholar.google.com/citations?user=xyz"],
          github := ["https://github.com/alice"],
          linkedin := [] } := by
  constructor
  · intro text
    refine ⟨?_, ?_, ?_⟩
    · intro u hu
      exact mem_cleanBucket scholarKeep _ u hu
    · intro u hu
      have h := mem_cleanBucket githubKeep _ u hu
      exact ⟨h.1, (Bool.or_eq_true _ _).mp h.2⟩
    · intro u hu
      exact mem_cleanBucket linkedinKeep _ u hu
  · decide

/-- Witness for C7 at the example text's GitHub bucket. -/
theorem extract_platform_urls_spec_witness :
    "https://github.com/alice" ∈ (extractPlatformUrlsCore
      "See github.com/alice and scholar.google.com/citations?user=xyz for more").github
    ∧ startsWithScheme "https://github.com/alice" = true
    ∧ (containsSub "github.com/" (pyLower "https://github.com/alice") = true
        ∨ containsSub ".github.io" (pyLower "https://github.com/alice") = true) :=
  have hm : "https://github.com/alice" ∈ (extractPlatformUrlsCore
      "See github.com/alice and scholar.google.com/citations?user=xyz for more").github :=
    by decide
  ⟨hm, ((extract_platform_urls_spec.1 _).2.1 _ hm).1,
    ((extract_platform_urls_spec.1 _).2.1 _ hm).2⟩

theorem summarize_preview_eq (pdf_path text : String) :
    (summarizeCore pdf_path text).text_preview
      = if text.length > 500 then String.mk (text.toList.take 500) ++ "..." else text := rfl

/-- C8: the text preview of a successful summary is the full text when it
has at most 500 characters, and the first 500 characters followed by the
3-character ellipsis otherwise; its length never exceeds 503. -/
theorem summarize_pdf_preview_bound (pdf_path text : String) :
    ((summarizeCore pdf_path text).text_preview).length ≤ 503
    ∧ (text.length ≤ 500 → (summarizeCore pdf_path text).text_preview = text)
    ∧ (500 < text.length →
        (summarizeCore pdf_path text).text_preview
            = String.mk (text.toList.take 500) ++ "..."
          ∧ ((summarizeCore pdf_path text).text_preview).length = 503) := by
  rw [summarize_preview_eq]
  by_cases h : text.length > 500
  · rw [if_pos h]
    have hlen : (String.mk (text.toList.take 500) ++ "...").length = 503 := by
      rw [String.length_append, String.length_mk, List.length_take]
      have : text.toList.length = text.length := rfl
      rw [this, min_eq_left (by omega)]
      rfl
    refine ⟨by omega, fun hle => absurd h (by omega), fun _ => ⟨rfl, hlen⟩⟩
  · rw [if_neg h]
    exact ⟨by omega, fun _ => rfl, fun hgt => absurd hgt h⟩

set_option maxRecDepth 4000 in
/-- Witness for C8 at a short and a long concrete text. -/
theorem summarize_pdf_preview_bound_witness :
    (summarizeCore "doc.pdf" "short text").text_preview = "short text"
    ∧ ((summarizeCore "doc.pdf" (String.mk (List.replicate 501 'a'))).text_preview).length
        = 503 :=
  ⟨(summarize_pdf_preview_bound "doc.pdf" "short text").2.1 (by decide),
   ((summarize_pdf_preview_bound "doc.pdf" (String.mk (List.replicate 501 'a'))).2.2
      (by decide)).2⟩

/-- C9: contact extraction and summarization are total on any outcome of the
fallible text production, always return a record carrying the original
path, convert a fault into an error record with an error string, and the
batch loop yields one record per document with exactly as many error
records as faulty documents. -/
theorem extraction_isolates_failures :
    (∀ (pdf_path : String) (attempt : Except String String),
      (extract_contact_info pdf_path attempt).path = pdf_path
      ∧ (summarize_pdf pdf_path attempt).path = pdf_path)
    ∧ (∀ (pdf_path e : String),
      extract_contact_info pdf_path (.error e)
          = .err ("Error extracting contact info from " ++ pdf_path ++ ": " ++ e) pdf_path
      ∧ summarize_pdf pdf_path (.error e)
          = .err (basename pdf_path) pdf_path ("Error summarizing " ++ pdf_path ++ ": " ++ e))
    ∧ (∀ docs : List (String × Except String String),
      (summarizeBatch docs).length = docs.length
      ∧ (summarizeBatch docs).countP isErrResult
          = docs.countP (fun d => match d.2 with | .error _ => true | .ok _ => false)) := by
  refine ⟨?_, ?_, ?_⟩
  · intro pdf_path attempt
    cases attempt with
    | ok text => exact ⟨rfl, rfl⟩
    | error e => exact ⟨rfl, rfl⟩
  · intro pdf_path e
    exact ⟨rfl, rfl⟩
  · intro docs
    constructor
    · simp [summarizeBatch]
    · simp only [summarizeBatch, List.countP_map]
      apply List.countP_congr
      intro d _
      cases hd : d.2 with
      | ok text => simp [Function.comp, summarize_pdf, hd, isErrResult]
      | error e => simp [Function.comp, summarize_pdf, hd, isErrResult]

end PDFExtraction
